import Mathlib

/-!
# vaultmux-server: handlers and process entry point

A shallow embedding of `handlers/secrets.go` and `cmd/server/main.go`.

The secret store behind the handlers (`vaultmux.Backend`) is an interface of an
external library.  It is embedded as a record of state-passing operations over
an arbitrary state type, so that every statement about a handler is quantified
over all backends.  Go multi-value results are embedded as pairs, a Go `error`
result as `Option GoError` (`none` is `nil`).
-/

namespace Vaultmux

/-! ## External values the handlers observe -/

/-- A Go error value as the handlers observe it: the text returned by `Error()`
and whether the value is identical (`==`) to the sentinel `vaultmux.ErrNotFound`. -/
structure GoError where
  Error : String
  isErrNotFound : Bool
  deriving DecidableEq, Repr

/-- The item record of the backend library, restricted to the name (the only field the
handlers read) and the secret payload (`Notes`, what `GetNotes` returns). -/
structure Item where
  Name : String
  Notes : String
  deriving DecidableEq, Repr

/-- The interface `vaultmux.Backend`, as far as the handlers use it.  `σ` is the
state of the store behind the handle, `τ` the session type.  Every operation
receives the session and the current state and returns its Go results together
with the next state.  The request context argument is not modelled. -/
structure Backend (σ τ : Type) where
  ListItems : τ → σ → (List Item × Option GoError) × σ
  GetNotes : String → τ → σ → (String × Option GoError) × σ
  ItemExists : String → τ → σ → (Bool × Option GoError) × σ
  CreateItem : String → String → τ → σ → Option GoError × σ
  UpdateItem : String → String → τ → σ → Option GoError × σ
  DeleteItem : String → τ → σ → Option GoError × σ

/-- One call on the backend interface, with the name and value arguments it received. -/
inductive Call where
  | ListItems
  | GetNotes (name : String)
  | ItemExists (name : String)
  | CreateItem (name value : String)
  | UpdateItem (name value : String)
  | DeleteItem (name : String)
  deriving DecidableEq, Repr

/-- Calls that change the store. -/
def Call.isMutation : Call → Bool
  | .CreateItem _ _ => true
  | .UpdateItem _ _ => true
  | .DeleteItem _ => true
  | _ => false

/-- The store state together with the log of backend calls made so far. -/
structure World (σ : Type) where
  state : σ
  calls : List Call

/-- A fresh world: the given store state and an empty call log. -/
def World.start {σ : Type} (s : σ) : World σ := ⟨s, []⟩

/-! ## HTTP side (gin) -/

def StatusOK : Nat := 200
def StatusCreated : Nat := 201
def StatusNoContent : Nat := 204
def StatusBadRequest : Nat := 400
def StatusNotFound : Nat := 404
def StatusConflict : Nat := 409
def StatusInternalServerError : Nat := 500

/-- Struct `CreateSecretRequest` of the source: both fields carry `binding:"required"`. -/
structure CreateSecretRequest where
  Name : String
  Value : String
  deriving DecidableEq, Repr

/-- Struct `UpdateSecretRequest` of the source: `Value` carries `binding:"required"`. -/
structure UpdateSecretRequest where
  Value : String
  deriving DecidableEq, Repr

/-- The objects the handlers hand to `c.JSON`: `gin.H{"error": msg}`,
`SecretResponse`, `ListSecretsResponse`, and `nil`. -/
inductive Obj where
  | H (error : String)
  | SecretResponse (Name Value : String)
  | ListSecretsResponse (Secrets : List String)
  | nil
  deriving DecidableEq, Repr

/-- What is written to the client: the status code and the rendered object, or no
body at all. -/
structure Response where
  status : Nat
  body : Option Obj
  deriving DecidableEq, Repr

/-- The rule of gin (and net/http) for statuses that carry no body: 1xx, 204, 304. -/
def bodyAllowedForStatus (status : Nat) : Bool :=
  if 100 ≤ status ∧ status ≤ 199 then false
  else if status = 204 then false
  else if status = 304 then false
  else true

/-- The call `c.JSON(code, obj)`: writes the status, and the object only where the status
allows a body. -/
def JSON (code : Nat) (obj : Obj) : Response :=
  ⟨code, if bodyAllowedForStatus code then some obj else none⟩

/-- The request as a handler sees it.  `Param` is the route parameter lookup.
`body` is the outcome of reading the request body as a JSON object with string
values: a decoding error (bad syntax, a value of another type), or the entries of
the object as (key, value) pairs in document order, entries with the value `null`
left out (decoding skips them). -/
structure Context where
  Param : String → String
  body : Except GoError (List (String × String))

/-- The characters of a key with the ASCII capitals lowered. -/
def foldKey (key : String) : List Char := key.data.map Char.toLower

/-- Whether `encoding/json` stores the value of an object key into the struct field
with the given json tag: the key equals the tag, or differs from it only in letter
case.  The tags of this program are `name` and `value`; none of their letters has
a case variant outside ASCII, so the comparison is one of ASCII-lowered keys. -/
def keyMatches (tag key : String) : Bool :=
  key == tag || foldKey key == foldKey tag

/-- Go decoding into one string field: the field starts at the zero value `""`, and
every entry whose key matches the tag stores its value, in document order (so the
last matching entry decides, and a field without a matching entry stays `""`). -/
def field (entries : List (String × String)) (tag : String) : String :=
  entries.foldl (fun cur p => if keyMatches tag p.1 then p.2 else cur) ""

/-- The text of the validator for one field that failed its `required` tag. -/
def requiredText (struct fld : String) : String :=
  "Key: '" ++ struct ++ "." ++ fld ++ "' Error:Field validation for '" ++ fld ++
    "' failed on the 'required' tag"

/-- The `required` check over the fields of a struct, in declaration order: a string
field fails when it is the zero value `""`.  The failures are joined by newlines. -/
def validateRequired (struct : String) (fields : List (String × String)) : Option GoError :=
  match fields.filter (fun f => f.2 == "") with
  | [] => none
  | bad => some ⟨"\n".intercalate (bad.map (fun f => requiredText struct f.1)), false⟩

/-- The call `c.ShouldBindJSON(&req)` for `CreateSecretRequest`: decode, then validate. -/
def Context.ShouldBindJSONCreate (c : Context) : Except GoError CreateSecretRequest :=
  match c.body with
  | .error err => .error err
  | .ok entries =>
    let req : CreateSecretRequest := ⟨field entries "name", field entries "value"⟩
    match validateRequired "CreateSecretRequest" [("Name", req.Name), ("Value", req.Value)] with
    | some err => .error err
    | none => .ok req

/-- The call `c.ShouldBindJSON(&req)` for `UpdateSecretRequest`: decode, then validate. -/
def Context.ShouldBindJSONUpdate (c : Context) : Except GoError UpdateSecretRequest :=
  match c.body with
  | .error err => .error err
  | .ok entries =>
    let req : UpdateSecretRequest := ⟨field entries "value"⟩
    match validateRequired "UpdateSecretRequest" [("Value", req.Value)] with
    | some err => .error err
    | none => .ok req

/-! ## The handler (handlers/secrets.go) -/

/-- Struct `SecretHandler` of the source: the backend handle and the session. -/
structure SecretHandler (σ τ : Type) where
  backend : Backend σ τ
  session : τ

/-- Function `NewSecretHandler` of the source. -/
def NewSecretHandler {σ τ : Type} (backend : Backend σ τ) (session : τ) : SecretHandler σ τ :=
  ⟨backend, session⟩

namespace SecretHandler

variable {σ τ : Type}

/-- The call `h.backend.ListItems(ctx, h.session)`, entered in the call log. -/
def callListItems (h : SecretHandler σ τ) (w : World σ) :
    (List Item × Option GoError) × World σ :=
  let r := h.backend.ListItems h.session w.state
  (r.1, ⟨r.2, w.calls ++ [Call.ListItems]⟩)

/-- The call `h.backend.GetNotes(ctx, name, h.session)`, entered in the call log. -/
def callGetNotes (h : SecretHandler σ τ) (name : String) (w : World σ) :
    (String × Option GoError) × World σ :=
  let r := h.backend.GetNotes name h.session w.state
  (r.1, ⟨r.2, w.calls ++ [Call.GetNotes name]⟩)

/-- The call `h.backend.ItemExists(ctx, name, h.session)`, entered in the call log. -/
def callItemExists (h : SecretHandler σ τ) (name : String) (w : World σ) :
    (Bool × Option GoError) × World σ :=
  let r := h.backend.ItemExists name h.session w.state
  (r.1, ⟨r.2, w.calls ++ [Call.ItemExists name]⟩)

/-- The call `h.backend.CreateItem(ctx, name, value, h.session)`, entered in the call log. -/
def callCreateItem (h : SecretHandler σ τ) (name value : String) (w : World σ) :
    Option GoError × World σ :=
  let r := h.backend.CreateItem name value h.session w.state
  (r.1, ⟨r.2, w.calls ++ [Call.CreateItem name value]⟩)

/-- The call `h.backend.UpdateItem(ctx, name, value, h.session)`, entered in the call log. -/
def callUpdateItem (h : SecretHandler σ τ) (name value : String) (w : World σ) :
    Option GoError × World σ :=
  let r := h.backend.UpdateItem name value h.session w.state
  (r.1, ⟨r.2, w.calls ++ [Call.UpdateItem name value]⟩)

/-- The call `h.backend.DeleteItem(ctx, name, h.session)`, entered in the call log. -/
def callDeleteItem (h : SecretHandler σ τ) (name : String) (w : World σ) :
    Option GoError × World σ :=
  let r := h.backend.DeleteItem name h.session w.state
  (r.1, ⟨r.2, w.calls ++ [Call.DeleteItem name]⟩)

/-- The loop of `ListSecrets`: `names := make([]string, len(items))`, then
`names[i] = item.Name` for every index and item of `items`. -/
def collectNames (items : List Item) : List String :=
  items.enum.foldl (fun names p => names.set p.1 p.2.Name) (List.replicate items.length "")

/-- Method `ListSecrets` of the source. -/
def ListSecrets (h : SecretHandler σ τ) (_c : Context) (w : World σ) : Response × World σ :=
  match h.callListItems w with
  | ((_, some err), w1) => (JSON StatusInternalServerError (.H err.Error), w1)
  | ((items, none), w1) =>
    let names := collectNames items
    (JSON StatusOK (.ListSecretsResponse names), w1)

/-- Method `GetSecret` of the source. -/
def GetSecret (h : SecretHandler σ τ) (c : Context) (w : World σ) : Response × World σ :=
  let name := c.Param "name"
  match h.callGetNotes name w with
  | ((_, some err), w1) =>
    if err.isErrNotFound then (JSON StatusNotFound (.H "secret not found"), w1)
    else (JSON StatusInternalServerError (.H err.Error), w1)
  | ((value, none), w1) => (JSON StatusOK (.SecretResponse name value), w1)

/-- Method `CreateSecret` of the source.  `SecretResponse{Name: req.Name}` leaves `Value`
at its zero value `""`. -/
def CreateSecret (h : SecretHandler σ τ) (c : Context) (w : World σ) : Response × World σ :=
  match c.ShouldBindJSONCreate with
  | .error err => (JSON StatusBadRequest (.H err.Error), w)
  | .ok req =>
    match h.callItemExists req.Name w with
    | ((_, some err), w1) => (JSON StatusInternalServerError (.H err.Error), w1)
    | ((isPresent, none), w1) =>
      if isPresent then (JSON StatusConflict (.H "secret already exists"), w1)
      else
        match h.callCreateItem req.Name req.Value w1 with
        | (some err, w2) => (JSON StatusInternalServerError (.H err.Error), w2)
        | (none, w2) => (JSON StatusCreated (.SecretResponse req.Name ""), w2)

/-- Method `UpdateSecret` of the source. -/
def UpdateSecret (h : SecretHandler σ τ) (c : Context) (w : World σ) : Response × World σ :=
  let name := c.Param "name"
  match c.ShouldBindJSONUpdate with
  | .error err => (JSON StatusBadRequest (.H err.Error), w)
  | .ok req =>
    match h.callItemExists name w with
    | ((_, some err), w1) => (JSON StatusInternalServerError (.H err.Error), w1)
    | ((isPresent, none), w1) =>
      if !isPresent then (JSON StatusNotFound (.H "secret not found"), w1)
      else
        match h.callUpdateItem name req.Value w1 with
        | (some err, w2) => (JSON StatusInternalServerError (.H err.Error), w2)
        | (none, w2) => (JSON StatusOK (.SecretResponse name ""), w2)

/-- Method `DeleteSecret` of the source. -/
def DeleteSecret (h : SecretHandler σ τ) (c : Context) (w : World σ) : Response × World σ :=
  let name := c.Param "name"
  match h.callItemExists name w with
  | ((_, some err), w1) => (JSON StatusInternalServerError (.H err.Error), w1)
  | ((isPresent, none), w1) =>
    if !isPresent then (JSON StatusNotFound (.H "secret not found"), w1)
    else
      match h.callDeleteItem name w1 with
      | (some err, w2) => (JSON StatusInternalServerError (.H err.Error), w2)
      | (none, w2) => (JSON StatusNoContent .nil, w2)

end SecretHandler

/-! ## Backends that behave as a key-value store -/

/-- The sentinel `vaultmux.ErrNotFound` as the handlers observe it, with the text of
the library. -/
def ErrNotFound : GoError := ⟨"item not found", true⟩

/-- A backend is a faithful key-value store with respect to `view` (the content of
the store: the value under each present name) when the probes report the content
and leave it alone, and a mutation of the kind the handlers issue (create of an
absent name, update or delete of a present one) succeeds and changes exactly the
entry of that name.  What `CreateItem` does on a present name, and what
`UpdateItem` and `DeleteItem` do on an absent one, is left to the backend. -/
structure FaithfulKV {σ τ : Type} (b : Backend σ τ) (view : σ → String → Option String) :
    Prop where
  itemExists : ∀ (n : String) (t : τ) (s : σ),
    (b.ItemExists n t s).1 = ((view s n).isSome, none) ∧ view (b.ItemExists n t s).2 = view s
  getNotesPresent : ∀ (n : String) (t : τ) (s : σ) (v : String), view s n = some v →
    (b.GetNotes n t s).1 = (v, none) ∧ view (b.GetNotes n t s).2 = view s
  getNotesAbsent : ∀ (n : String) (t : τ) (s : σ), view s n = none →
    (∃ e, (b.GetNotes n t s).1.2 = some e ∧ e.isErrNotFound = true) ∧
      view (b.GetNotes n t s).2 = view s
  createItem : ∀ (n v : String) (t : τ) (s : σ), view s n = none →
    (b.CreateItem n v t s).1 = none ∧
      view (b.CreateItem n v t s).2 = Function.update (view s) n (some v)
  updateItem : ∀ (n v : String) (t : τ) (s : σ), (view s n).isSome = true →
    (b.UpdateItem n v t s).1 = none ∧
      view (b.UpdateItem n v t s).2 = Function.update (view s) n (some v)
  deleteItem : ∀ (n : String) (t : τ) (s : σ), (view s n).isSome = true →
    (b.DeleteItem n t s).1 = none ∧
      view (b.DeleteItem n t s).2 = Function.update (view s) n none

/-- The content of an in-memory store: a list of (name, value) entries. -/
abbrev MemStore : Type := List (String × String)

/-- The content of an in-memory store as a lookup. -/
def memView (s : MemStore) (n : String) : Option String :=
  (s.find? (fun p => p.1 == n)).map (fun p => p.2)

/-- An in-memory backend over `MemStore`, with a trivial session.  `CreateItem` refuses a
present name; `UpdateItem` and `DeleteItem` answer `ErrNotFound` on an absent one. -/
def memBackend : Backend MemStore Unit where
  ListItems := fun _ s => ((s.map (fun p => ⟨p.1, p.2⟩), none), s)
  GetNotes := fun n _ s =>
    match memView s n with
    | some v => ((v, none), s)
    | none => (("", some ErrNotFound), s)
  ItemExists := fun n _ s => (((memView s n).isSome, none), s)
  CreateItem := fun n v _ s =>
    if (memView s n).isSome then (some ⟨"already exists", false⟩, s)
    else (none, s ++ [(n, v)])
  UpdateItem := fun n v _ s =>
    if (memView s n).isSome then (none, s.map (fun p => if p.1 == n then (n, v) else p))
    else (some ErrNotFound, s)
  DeleteItem := fun n _ s =>
    if (memView s n).isSome then (none, s.filter (fun p => !(p.1 == n)))
    else (some ErrNotFound, s)

/-- The handler over the in-memory backend. -/
def memHandler : SecretHandler MemStore Unit := NewSecretHandler memBackend ()

/-- A backend every operation of which answers the sentinel `ErrNotFound`, except the
probe `ItemExists`, which answers as given.  With the probe `(true, nil)` it is a
store on which a present item is gone by the time the mutation arrives, as when
another client deletes it in between. -/
def notFoundBackend (probe : Bool × Option GoError) : Backend Unit Unit where
  ListItems := fun _ s => (([], some ErrNotFound), s)
  GetNotes := fun _ _ s => (("", some ErrNotFound), s)
  ItemExists := fun _ _ s => (probe, s)
  CreateItem := fun _ _ _ s => (some ErrNotFound, s)
  UpdateItem := fun _ _ _ s => (some ErrNotFound, s)
  DeleteItem := fun _ _ s => (some ErrNotFound, s)

/-- A request for the route parameter `name` with a JSON object body of the given
entries. -/
def request (name : String) (entries : List (String × String)) : Context :=
  ⟨fun k => if k = "name" then name else "", .ok entries⟩


/-! ## The process entry point (cmd/server/main.go) -/

/-- The record `vaultmux.Config` as `main` fills it. -/
structure Config where
  Backend : String
  Prefix : String
  Options : List (String × String)
  deriving DecidableEq, Repr

/-- What the process does that can be observed from outside, in order. -/
inductive Event where
  /-- A line written by `log.Printf` or `log.Println`. -/
  | Log (msg : String)
  /-- The line written by `log.Fatal` or `log.Fatalf`, which then calls `os.Exit(1)`. -/
  | Fatal (msg : String)
  /-- The call `vaultmux.New(cfg)`. -/
  | New (cfg : Config)
  /-- The call `backend.Init(ctx)`. -/
  | Init
  /-- The call `backend.Authenticate(ctx)`. -/
  | Authenticate
  /-- The router is built: middleware, handler, routes. -/
  | Router (backendType : String)
  /-- The goroutine running `srv.ListenAndServe()` on the address is started. -/
  | Serve (addr : String)
  /-- A value is received from `quit`. -/
  | Signal
  /-- The call `srv.Shutdown(ctx)` with the grace period in seconds. -/
  | Shutdown (grace : Nat)
  /-- The deferred `cancel()`. -/
  | Cancel
  /-- The deferred `backend.Close()`. -/
  | Close
  deriving DecidableEq, Repr

/-- Everything outside the process that `main` depends on: the environment
variables (`os.Getenv` gives `""` for an unset one), the outcome of each call on
the backend library, whether the listener fails to start (`some err` with an
error other than `http.ErrServerClosed`), whether a termination signal ever
arrives, and the outcome of `srv.Shutdown` (`some err` when the grace period ran
out before the requests in flight finished). -/
structure Env where
  Getenv : String → String
  New : Config → Option GoError
  Init : Option GoError
  Authenticate : Option GoError
  ListenAndServe : Option GoError
  quit : Bool
  Shutdown : Option GoError

/-- A finished or blocked run: the events in order and the exit status, `none` when
the process never ends. -/
structure Run where
  events : List Event
  exit : Option Nat
  deriving DecidableEq, Repr

/-- The running `main`: the events so far and the deferred calls, latest first. -/
structure Proc where
  events : List Event
  deferred : List Event

/-- The process does something observable. -/
def Proc.emit (p : Proc) (e : Event) : Proc := ⟨p.events ++ [e], p.deferred⟩

/-- A `defer` statement: the call is pushed, to run when `main` returns. -/
def Proc.defer (p : Proc) (e : Event) : Proc := ⟨p.events, e :: p.deferred⟩

/-- The calls `log.Fatal` and `log.Fatalf`: the line is written and `os.Exit(1)` ends the process
at once; deferred calls are not run. -/
def Proc.fatal (p : Proc) (msg : String) : Run := ⟨p.events ++ [Event.Fatal msg], some 1⟩

/-- Return from `main`: the deferred calls run, latest first, and the process exits with
status 0. -/
def Proc.ret (p : Proc) : Run := ⟨p.events ++ p.deferred, some 0⟩

/-- The process stays blocked for ever. -/
def Proc.block (p : Proc) : Run := ⟨p.events, none⟩

/-- Function `getEnv` of the source. -/
def getEnv (e : Env) (key defaultValue : String) : String :=
  let value := e.Getenv key
  if value ≠ "" then value else defaultValue

/-- Function `getBackendOptions` of the source; the map is a list of entries. -/
def getBackendOptions (e : Env) : List (String × String) :=
  let opts : List (String × String) := []
  let region := e.Getenv "AWS_REGION"
  let opts := if region ≠ "" then opts ++ [("region", region)] else opts
  let endpoint := e.Getenv "AWS_ENDPOINT"
  let opts := if endpoint ≠ "" then opts ++ [("endpoint", endpoint)] else opts
  let projectID := e.Getenv "GCP_PROJECT_ID"
  let opts := if projectID ≠ "" then opts ++ [("project_id", projectID)] else opts
  opts

/-- The map `supportedBackends` of `main`. -/
def supportedBackendsMap : List (String × Bool) :=
  [("awssecrets", true), ("gcpsecrets", true), ("azurekeyvault", true)]

/-- The lookup `supportedBackends[backendType]`: a missing key gives `false`. -/
def supportedBackends (backendType : String) : Bool :=
  ((supportedBackendsMap.find? (fun p => p.1 == backendType)).map (fun p => p.2)).getD false

/-- The configuration `main` hands to `vaultmux.New`. -/
def backendConfig (e : Env) : Config :=
  ⟨getEnv e "VAULTMUX_BACKEND" "", getEnv e "VAULTMUX_PREFIX" "vaultmux", getBackendOptions e⟩

/-- Function `main` of the source.  The goroutine of `srv.ListenAndServe` is placed where the
main goroutine waits on `quit`: a listener that fails ends the process there. -/
def main (e : Env) : Run :=
  let p : Proc := ⟨[], []⟩
  let port := getEnv e "PORT" "8080"
  let backendType := getEnv e "VAULTMUX_BACKEND" ""
  if backendType = "" then
    p.fatal "VAULTMUX_BACKEND environment variable is required (aws, gcp, or azure)"
  else if !supportedBackends backendType then
    p.fatal ("Unsupported backend: " ++ backendType ++ ". vaultmux-server supports: awssecrets, gcpsecrets, azurekeyvault. For other backends (pass, bitwarden, 1password), use the vaultmux library directly.")
  else
    let cfg : Config := ⟨backendType, getEnv e "VAULTMUX_PREFIX" "vaultmux", getBackendOptions e⟩
    let p := p.emit (.New cfg)
    match e.New cfg with
    | some err => p.fatal ("Failed to create vaultmux backend: " ++ err.Error)
    | none =>
      let p := p.defer .Close
      let p := p.emit .Init
      match e.Init with
      | some err => p.fatal ("Failed to initialize backend: " ++ err.Error)
      | none =>
        let p := p.emit .Authenticate
        match e.Authenticate with
        | some err => p.fatal ("Failed to authenticate: " ++ err.Error)
        | none =>
          let p := p.emit (.Router backendType)
          let p := p.emit (.Serve (":" ++ port))
          let p := p.emit (.Log ("Starting vaultmux-server on :" ++ port ++ " (backend: " ++ backendType ++ ")"))
          match e.ListenAndServe with
          | some err => p.fatal ("Failed to start server: " ++ err.Error)
          | none =>
            if !e.quit then p.block
            else
              let p := p.emit .Signal
              let p := p.emit (.Log "Shutting down server...")
              let p := p.defer .Cancel
              let p := p.emit (.Shutdown 5)
              match e.Shutdown with
              | some err => p.fatal ("Server forced to shutdown: " ++ err.Error)
              | none =>
                let p := p.emit (.Log "Server exited")
                p.ret

/-- An environment: the selector, the outcomes of the backend calls and of the
shutdown; the other variables unset, the listener starts and a signal arrives. -/
def envOf (backendType : String) (new init auth shutdown : Option GoError) : Env :=
  ⟨fun k => if k = "VAULTMUX_BACKEND" then backendType else "", fun _ => new, init, auth,
    none, true, shutdown⟩


/-! ## Lemmas: each handler as a function of the backend results -/

section Lemmas

open SecretHandler

variable {σ τ : Type}

theorem collectNames_aux (items : List Item) (pre : List String) :
    (items.enumFrom pre.length).foldl (fun names p => names.set p.1 p.2.Name)
      (pre ++ List.replicate items.length "") = pre ++ items.map Item.Name := by
  induction items generalizing pre with
  | nil => simp
  | cons x xs ih =>
    have h := ih (pre ++ [x.Name])
    simp only [List.length_append, List.length_singleton] at h
    simp only [List.enumFrom_cons, List.foldl_cons, List.length_cons, List.replicate_succ,
      List.map_cons]
    have hset : (pre ++ "" :: List.replicate xs.length "").set pre.length x.Name
        = (pre ++ [x.Name]) ++ List.replicate xs.length "" := by
      simp [List.set_append]
    rw [hset, h]
    simp

theorem collectNames_eq_map (items : List Item) : collectNames items = items.map Item.Name := by
  have h := collectNames_aux items []
  simpa [collectNames, List.enum] using h

theorem listSecrets_eq (h : SecretHandler σ τ) (c : Context) (w : World σ) :
    h.ListSecrets c w =
      ((match (h.backend.ListItems h.session w.state).1.2 with
        | some err => JSON StatusInternalServerError (.H err.Error)
        | none => JSON StatusOK
            (.ListSecretsResponse ((h.backend.ListItems h.session w.state).1.1.map Item.Name))),
       ⟨(h.backend.ListItems h.session w.state).2, w.calls ++ [Call.ListItems]⟩) := by
  rcases hr : h.backend.ListItems h.session w.state with ⟨⟨items, e⟩, s⟩
  simp only [ListSecrets, callListItems, hr]
  cases e with
  | none => simp [collectNames_eq_map]
  | some err => rfl

theorem getSecret_eq (h : SecretHandler σ τ) (c : Context) (w : World σ) :
    h.GetSecret c w =
      ((match (h.backend.GetNotes (c.Param "name") h.session w.state).1.2 with
        | some err => if err.isErrNotFound then JSON StatusNotFound (.H "secret not found")
            else JSON StatusInternalServerError (.H err.Error)
        | none => JSON StatusOK (.SecretResponse (c.Param "name")
            (h.backend.GetNotes (c.Param "name") h.session w.state).1.1)),
       ⟨(h.backend.GetNotes (c.Param "name") h.session w.state).2,
        w.calls ++ [Call.GetNotes (c.Param "name")]⟩) := by
  rcases hr : h.backend.GetNotes (c.Param "name") h.session w.state with ⟨⟨v, e⟩, s⟩
  simp only [GetSecret, callGetNotes, hr]
  cases e with
  | none => rfl
  | some err => by_cases hnf : err.isErrNotFound = true <;> simp [hnf]

theorem createSecret_eq (h : SecretHandler σ τ) (c : Context) (w : World σ)
    (req : CreateSecretRequest) (hb : c.ShouldBindJSONCreate = .ok req) :
    h.CreateSecret c w =
      match (h.backend.ItemExists req.Name h.session w.state).1.2 with
      | some err => (JSON StatusInternalServerError (.H err.Error),
          ⟨(h.backend.ItemExists req.Name h.session w.state).2,
           w.calls ++ [Call.ItemExists req.Name]⟩)
      | none =>
        if (h.backend.ItemExists req.Name h.session w.state).1.1 then
          (JSON StatusConflict (.H "secret already exists"),
            ⟨(h.backend.ItemExists req.Name h.session w.state).2,
             w.calls ++ [Call.ItemExists req.Name]⟩)
        else
          ((match (h.backend.CreateItem req.Name req.Value h.session
                (h.backend.ItemExists req.Name h.session w.state).2).1 with
            | some err => JSON StatusInternalServerError (.H err.Error)
            | none => JSON StatusCreated (.SecretResponse req.Name "")),
           ⟨(h.backend.CreateItem req.Name req.Value h.session
              (h.backend.ItemExists req.Name h.session w.state).2).2,
            w.calls ++ [Call.ItemExists req.Name, Call.CreateItem req.Name req.Value]⟩) := by
  rcases hp : h.backend.ItemExists req.Name h.session w.state with ⟨⟨b, e⟩, s1⟩
  simp only [CreateSecret, hb, callItemExists, hp, callCreateItem]
  cases e with
  | some err => rfl
  | none =>
    cases b with
    | true => rfl
    | false =>
      rcases hc : h.backend.CreateItem req.Name req.Value h.session s1 with ⟨e2, s2⟩
      cases e2 <;> simp [hc]

theorem updateSecret_eq (h : SecretHandler σ τ) (c : Context) (w : World σ)
    (req : UpdateSecretRequest) (hb : c.ShouldBindJSONUpdate = .ok req) :
    h.UpdateSecret c w =
      match (h.backend.ItemExists (c.Param "name") h.session w.state).1.2 with
      | some err => (JSON StatusInternalServerError (.H err.Error),
          ⟨(h.backend.ItemExists (c.Param "name") h.session w.state).2,
           w.calls ++ [Call.ItemExists (c.Param "name")]⟩)
      | none =>
        if (h.backend.ItemExists (c.Param "name") h.session w.state).1.1 then
          ((match (h.backend.UpdateItem (c.Param "name") req.Value h.session
                (h.backend.ItemExists (c.Param "name") h.session w.state).2).1 with
            | some err => JSON StatusInternalServerError (.H err.Error)
            | none => JSON StatusOK (.SecretResponse (c.Param "name") "")),
           ⟨(h.backend.UpdateItem (c.Param "name") req.Value h.session
              (h.backend.ItemExists (c.Param "name") h.session w.state).2).2,
            w.calls ++
              [Call.ItemExists (c.Param "name"), Call.UpdateItem (c.Param "name") req.Value]⟩)
        else
          (JSON StatusNotFound (.H "secret not found"),
            ⟨(h.backend.ItemExists (c.Param "name") h.session w.state).2,
             w.calls ++ [Call.ItemExists (c.Param "name")]⟩) := by
  rcases hp : h.backend.ItemExists (c.Param "name") h.session w.state with ⟨⟨b, e⟩, s1⟩
  simp only [UpdateSecret, hb, callItemExists, hp, callUpdateItem]
  cases e with
  | some err => rfl
  | none =>
    cases b with
    | false => rfl
    | true =>
      rcases hc : h.backend.UpdateItem (c.Param "name") req.Value h.session s1 with ⟨e2, s2⟩
      cases e2 <;> simp [hc]

theorem deleteSecret_eq (h : SecretHandler σ τ) (c : Context) (w : World σ) :
    h.DeleteSecret c w =
      match (h.backend.ItemExists (c.Param "name") h.session w.state).1.2 with
      | some err => (JSON StatusInternalServerError (.H err.Error),
          ⟨(h.backend.ItemExists (c.Param "name") h.session w.state).2,
           w.calls ++ [Call.ItemExists (c.Param "name")]⟩)
      | none =>
        if (h.backend.ItemExists (c.Param "name") h.session w.state).1.1 then
          ((match (h.backend.DeleteItem (c.Param "name") h.session
                (h.backend.ItemExists (c.Param "name") h.session w.state).2).1 with
            | some err => JSON StatusInternalServerError (.H err.Error)
            | none => JSON StatusNoContent .nil),
           ⟨(h.backend.DeleteItem (c.Param "name") h.session
              (h.backend.ItemExists (c.Param "name") h.session w.state).2).2,
            w.calls ++ [Call.ItemExists (c.Param "name"), Call.DeleteItem (c.Param "name")]⟩)
        else
          (JSON StatusNotFound (.H "secret not found"),
            ⟨(h.backend.ItemExists (c.Param "name") h.session w.state).2,
             w.calls ++ [Call.ItemExists (c.Param "name")]⟩) := by
  rcases hp : h.backend.ItemExists (c.Param "name") h.session w.state with ⟨⟨b, e⟩, s1⟩
  simp only [DeleteSecret, callItemExists, hp, callDeleteItem]
  cases e with
  | some err => rfl
  | none =>
    cases b with
    | false => rfl
    | true =>
      rcases hc : h.backend.DeleteItem (c.Param "name") h.session s1 with ⟨e2, s2⟩
      cases e2 <;> simp [hc]

theorem foldl_field_of_no_match (tag : String) (entries : List (String × String))
    (cur : String) (hno : ∀ p ∈ entries, keyMatches tag p.1 = false) :
    entries.foldl (fun cur p => if keyMatches tag p.1 then p.2 else cur) cur = cur := by
  induction entries generalizing cur with
  | nil => rfl
  | cons p ps ih =>
    have hp : keyMatches tag p.1 = false := hno p (List.mem_cons_self p ps)
    simp only [List.foldl_cons, hp, Bool.false_eq_true, if_false]
    exact ih cur (fun q hq => hno q (List.mem_cons_of_mem p hq))

theorem field_of_no_match (tag : String) (entries : List (String × String))
    (hno : ∀ p ∈ entries, keyMatches tag p.1 = false) : field entries tag = "" :=
  foldl_field_of_no_match tag entries "" hno

theorem validateRequired_none_iff (struct : String) (fields : List (String × String)) :
    validateRequired struct fields = none ↔ ∀ f ∈ fields, f.2 ≠ "" := by
  unfold validateRequired
  cases hf : fields.filter (fun f => f.2 == "") with
  | nil =>
    simp only [true_iff]
    intro f hmem hempty
    have : f ∈ fields.filter (fun f => f.2 == "") := by
      simp [List.mem_filter, hmem, hempty]
    rw [hf] at this
    cases this
  | cons x xs =>
    simp only [false_iff, reduceCtorEq]
    intro hall
    have hx : x ∈ fields.filter (fun f => f.2 == "") := by rw [hf]; simp
    rw [List.mem_filter] at hx
    exact hall x hx.1 (by simpa using hx.2)

theorem bindCreate_ok_iff (c : Context) (req : CreateSecretRequest) :
    c.ShouldBindJSONCreate = .ok req ↔
      ∃ obj, c.body = .ok obj ∧ req = ⟨field obj "name", field obj "value"⟩ ∧
        field obj "name" ≠ "" ∧ field obj "value" ≠ "" := by
  unfold Context.ShouldBindJSONCreate
  cases hbody : c.body with
  | error err => simp
  | ok obj =>
    simp only [Except.ok.injEq, exists_eq_left']
    cases hv : validateRequired "CreateSecretRequest"
        [("Name", field obj "name"), ("Value", field obj "value")] with
    | none =>
      have := (validateRequired_none_iff _ _).1 hv
      simp only [List.mem_cons, List.mem_singleton, List.not_mem_nil, or_false, forall_eq_or_imp,
        forall_eq] at this
      simp only [Except.ok.injEq]
      constructor
      · intro h; exact ⟨h.symm, this.1, this.2⟩
      · intro h; exact h.1.symm
    | some err =>
      have hne : ¬ validateRequired "CreateSecretRequest"
          [("Name", field obj "name"), ("Value", field obj "value")] = none := by simp [hv]
      rw [validateRequired_none_iff] at hne
      simp only [List.mem_cons, List.mem_singleton, List.not_mem_nil, or_false, forall_eq_or_imp,
        forall_eq] at hne
      simp only [reduceCtorEq, false_iff]
      intro h
      exact hne ⟨h.2.1, h.2.2⟩

theorem bindUpdate_ok_iff (c : Context) (req : UpdateSecretRequest) :
    c.ShouldBindJSONUpdate = .ok req ↔
      ∃ obj, c.body = .ok obj ∧ req = ⟨field obj "value"⟩ ∧ field obj "value" ≠ "" := by
  unfold Context.ShouldBindJSONUpdate
  cases hbody : c.body with
  | error err => simp
  | ok obj =>
    simp only [Except.ok.injEq, exists_eq_left']
    cases hv : validateRequired "UpdateSecretRequest" [("Value", field obj "value")] with
    | none =>
      have := (validateRequired_none_iff _ _).1 hv
      simp only [List.mem_singleton, forall_eq] at this
      simp only [Except.ok.injEq]
      constructor
      · intro h; exact ⟨h.symm, this⟩
      · intro h; exact h.1.symm
    | some err =>
      have hne : ¬ validateRequired "UpdateSecretRequest" [("Value", field obj "value")] = none := by
        simp [hv]
      rw [validateRequired_none_iff] at hne
      simp only [List.mem_singleton, forall_eq] at hne
      simp only [reduceCtorEq, false_iff]
      intro h
      exact hne h.2

theorem memView_nil (k : String) : memView [] k = none := rfl

theorem memView_cons (p : String × String) (s : MemStore) (k : String) :
    memView (p :: s) k = if p.1 = k then some p.2 else memView s k := by
  unfold memView
  by_cases hk : p.1 = k <;> simp [List.find?_cons, hk]

theorem memView_append (s : MemStore) (n v k : String) :
    memView (s ++ [(n, v)]) k =
      match memView s k with
      | some x => some x
      | none => if n = k then some v else none := by
  induction s with
  | nil => simp [memView_cons, memView_nil]
  | cons p s ih =>
    simp only [List.cons_append, memView_cons]
    by_cases hpk : p.1 = k
    · simp [hpk]
    · simp only [hpk, if_false, ih]

theorem memView_map (s : MemStore) (n v k : String) :
    memView (s.map (fun p => if p.1 == n then (n, v) else p)) k =
      if k = n then (memView s n).map (fun _ => v) else memView s k := by
  induction s with
  | nil => simp [memView_nil]
  | cons p s ih =>
    simp only [List.map_cons, memView_cons, ih]
    by_cases hp : p.1 = n
    · by_cases hk : k = n
      · simp [hp, hk]
      · have hk2 : ¬ n = k := fun h => hk h.symm
        simp [hp, hk, hk2]
    · by_cases hk : k = n
      · subst hk
        simp [hp]
      · by_cases hpk : p.1 = k
        · simp [hp, hk, hpk]
        · simp [hp, hk, hpk]

theorem memView_filter (s : MemStore) (n k : String) :
    memView (s.filter (fun p => !(p.1 == n))) k = if k = n then none else memView s k := by
  induction s with
  | nil => simp [memView_nil]
  | cons p s ih =>
    by_cases hp : p.1 = n
    · simp only [List.filter_cons, hp, beq_self_eq_true, Bool.not_true, Bool.false_eq_true,
        if_false, ih, memView_cons]
      by_cases hk : k = n
      · simp [hk]
      · have hk2 : ¬ n = k := fun h => hk h.symm
        simp [hk, hk2]
    · have hb : (!(p.1 == n)) = true := by simp [hp]
      simp only [List.filter_cons, hb, if_true, memView_cons, ih]
      by_cases hk : k = n
      · subst hk
        simp [hp]
      · simp [hk]

theorem memBackend_faithful : FaithfulKV memBackend memView where
  itemExists := fun n t s => ⟨rfl, rfl⟩
  getNotesPresent := fun n t s v hv => by
    simp [memBackend, hv]
  getNotesAbsent := fun n t s hv => by
    simp [memBackend, hv, ErrNotFound]
  createItem := fun n v t s hv => by
    simp only [memBackend, hv, Option.isSome_none, Bool.false_eq_true, if_false, true_and]
    funext k
    rw [memView_append]
    by_cases hk : k = n
    · subst hk; simp [hv]
    · have hk2 : ¬ n = k := fun h => hk h.symm
      simp only [hk2, if_false, Function.update_noteq hk]
      cases memView s k <;> rfl
  updateItem := fun n v t s hv => by
    simp only [memBackend, hv, if_true, true_and]
    funext k
    rw [memView_map]
    by_cases hk : k = n
    · subst hk
      obtain ⟨x, hx⟩ := Option.isSome_iff_exists.1 hv
      simp [hx]
    · simp [hk, Function.update_noteq hk]
  deleteItem := fun n t s hv => by
    simp only [memBackend, hv, if_true, true_and]
    funext k
    rw [memView_filter]
    by_cases hk : k = n
    · subst hk; simp
    · simp [hk, Function.update_noteq hk]

end Lemmas


/-! ## Read handlers and request binding -/

section Claims

open SecretHandler

variable {σ τ : Type}

/-- C5. GetSecret status mapping: for every request and every backend, `GetSecret`
makes exactly one backend call, the value lookup `GetNotes` for the requested name
(so no mutating call), and leaves the store in the state that lookup left; it
responds 200 with the requested name and the returned value when the lookup has no
error, 404 "secret not found" when the error is the sentinel `ErrNotFound`, and 500
with the error text for every other error. -/
theorem getSecret_status_mapping (h : SecretHandler σ τ) (c : Context) (w : World σ) :
    (h.GetSecret c w).2.calls = w.calls ++ [Call.GetNotes (c.Param "name")] ∧
    (∀ k ∈ (h.GetSecret c w).2.calls.drop w.calls.length, k.isMutation = false) ∧
    (h.GetSecret c w).2.state = (h.backend.GetNotes (c.Param "name") h.session w.state).2 ∧
    (∀ v, (h.backend.GetNotes (c.Param "name") h.session w.state).1 = (v, none) →
      (h.GetSecret c w).1 = ⟨200, some (.SecretResponse (c.Param "name") v)⟩) ∧
    (∀ v e, (h.backend.GetNotes (c.Param "name") h.session w.state).1 = (v, some e) →
      e.isErrNotFound = true → (h.GetSecret c w).1 = ⟨404, some (.H "secret not found")⟩) ∧
    (∀ v e, (h.backend.GetNotes (c.Param "name") h.session w.state).1 = (v, some e) →
      e.isErrNotFound = false → (h.GetSecret c w).1 = ⟨500, some (.H e.Error)⟩) := by
  rw [getSecret_eq h c w]
  rcases hr : h.backend.GetNotes (c.Param "name") h.session w.state with ⟨⟨v, e⟩, s⟩
  refine ⟨rfl, ?_, rfl, ?_, ?_, ?_⟩
  · intro k hk
    simp only [List.drop_left, List.mem_singleton] at hk
    subst hk
    rfl
  · intro v1 hv
    simp only [Prod.mk.injEq] at hv
    obtain ⟨rfl, rfl⟩ := hv
    rfl
  · intro v1 e1 hv hnf
    simp only [Prod.mk.injEq] at hv
    obtain ⟨rfl, rfl⟩ := hv
    simp only [hnf, if_true]
    rfl
  · intro v1 e1 hv hnf
    simp only [Prod.mk.injEq] at hv
    obtain ⟨rfl, rfl⟩ := hv
    simp only [hnf, Bool.false_eq_true, if_false]
    rfl

/-- Witness of C5 on the in-memory backend: a present secret is returned with 200. -/
theorem getSecret_status_mapping_witness :
    (memHandler.GetSecret (request "db-password" [])
        (World.start [("db-password", "s3cr3t")])).1
      = ⟨200, some (.SecretResponse "db-password" "s3cr3t")⟩ :=
  (getSecret_status_mapping memHandler (request "db-password" [])
    (World.start [("db-password", "s3cr3t")])).2.2.2.1 "s3cr3t" (by decide)

/-- C6. List is a passthrough of names: `ListSecrets` makes the one call `ListItems`;
when that has no error the response is 200 with a list of the same length whose
i-th element is the name of the i-th item (an empty item list gives an empty
list), and the response is the same for any other item list with the same names,
whatever the values; when `ListItems` has an error the response is 500 with the
error text. -/
theorem listSecrets_passthrough (h : SecretHandler σ τ) (c : Context) (w : World σ) :
    (h.ListSecrets c w).2.calls = w.calls ++ [Call.ListItems] ∧
    (∀ items, (h.backend.ListItems h.session w.state).1 = (items, none) →
      ∃ names, (h.ListSecrets c w).1 = ⟨200, some (.ListSecretsResponse names)⟩ ∧
        names.length = items.length ∧
        (∀ i (hi : i < items.length), names[i]? = some (items[i]).Name) ∧
        (items = [] → names = []) ∧
        (∀ (h2 : SecretHandler σ τ) (c2 : Context) (w2 : World σ) (items2 : List Item),
          (h2.backend.ListItems h2.session w2.state).1 = (items2, none) →
          items2.map Item.Name = items.map Item.Name →
          (h2.ListSecrets c2 w2).1 = (h.ListSecrets c w).1)) ∧
    (∀ items e, (h.backend.ListItems h.session w.state).1 = (items, some e) →
      (h.ListSecrets c w).1 = ⟨500, some (.H e.Error)⟩) := by
  rw [listSecrets_eq h c w]
  rcases hr : h.backend.ListItems h.session w.state with ⟨⟨items, e⟩, s⟩
  refine ⟨rfl, ?_, ?_⟩
  · intro items1 hv
    simp only [Prod.mk.injEq] at hv
    obtain ⟨rfl, rfl⟩ := hv
    refine ⟨items.map Item.Name, rfl, by simp, ?_, ?_, ?_⟩
    · intro i hi
      simp [List.getElem?_map, List.getElem?_eq_getElem hi]
    · intro hnil
      simp [hnil]
    · intro h2 c2 w2 items2 hr2 hnames
      rw [listSecrets_eq h2 c2 w2, hr2]
      simp only [hnames]
  · intro items1 e1 hv
    simp only [Prod.mk.injEq] at hv
    obtain ⟨rfl, rfl⟩ := hv
    rfl

/-- Witness of C6 on the in-memory backend: the names come back in store order,
a repeated name included. -/
theorem listSecrets_passthrough_witness :
    (memHandler.ListSecrets (request "" [])
        (World.start [("b", "1"), ("a", "2"), ("b", "3")])).2.calls = [Call.ListItems] ∧
    (memHandler.ListSecrets (request "" []) (World.start [("b", "1"), ("a", "2"), ("b", "3")])).1
      = ⟨200, some (.ListSecretsResponse ["b", "a", "b"])⟩ :=
  ⟨(listSecrets_passthrough memHandler (request "" [])
      (World.start [("b", "1"), ("a", "2"), ("b", "3")])).1, by decide⟩

/-- C7. Malformed bodies are rejected before the backend is touched: when binding
the body fails, `CreateSecret` (and likewise `UpdateSecret`) responds 400 with the
binding error and returns the world as it received it, so no backend call was made
and the store is unchanged.  Binding a create body fails exactly when the body does
not decode or decodes with an empty `Name` or an empty `Value`, in particular when
no key of the body matches `name`, or none matches `value`; binding an update
body fails exactly when the body does not decode or decodes with an empty `Value`,
in particular when no key matches `value`. -/
theorem malformed_body_rejected (h : SecretHandler σ τ) (c : Context) (w : World σ) :
    (∀ err, c.ShouldBindJSONCreate = .error err →
      h.CreateSecret c w = (⟨400, some (.H err.Error)⟩, w)) ∧
    (∀ err, c.ShouldBindJSONUpdate = .error err →
      h.UpdateSecret c w = (⟨400, some (.H err.Error)⟩, w)) ∧
    (∀ entries, c.body = .ok entries →
      ((∀ p ∈ entries, keyMatches "name" p.1 = false) ∨
        (∀ p ∈ entries, keyMatches "value" p.1 = false)) →
      ∃ err, c.ShouldBindJSONCreate = .error err) ∧
    (∀ entries, c.body = .ok entries → (∀ p ∈ entries, keyMatches "value" p.1 = false) →
      ∃ err, c.ShouldBindJSONUpdate = .error err) ∧
    (∀ err, c.body = .error err →
      c.ShouldBindJSONCreate = .error err ∧ c.ShouldBindJSONUpdate = .error err) ∧
    (∀ entries, c.body = .ok entries →
      ((∃ err, c.ShouldBindJSONCreate = .error err) ↔
        (field entries "name" = "" ∨ field entries "value" = ""))) ∧
    (∀ entries, c.body = .ok entries →
      ((∃ err, c.ShouldBindJSONUpdate = .error err) ↔ field entries "value" = "")) := by
  have hcreate : ∀ entries, c.body = .ok entries →
      ((∃ err, c.ShouldBindJSONCreate = .error err) ↔
        (field entries "name" = "" ∨ field entries "value" = "")) := by
    intro entries hbody
    cases hres : c.ShouldBindJSONCreate with
    | error err =>
      simp only [Except.error.injEq, exists_eq', true_iff]
      by_contra hcon
      simp only [not_or] at hcon
      have hok := (bindCreate_ok_iff c ⟨field entries "name", field entries "value"⟩).2
        ⟨entries, hbody, rfl, hcon.1, hcon.2⟩
      rw [hres] at hok
      cases hok
    | ok req =>
      obtain ⟨e1, hb1, -, hn, hv⟩ := (bindCreate_ok_iff c req).1 hres
      rw [hbody] at hb1
      simp only [Except.ok.injEq] at hb1
      subst hb1
      simp [hn, hv]
  have hupdate : ∀ entries, c.body = .ok entries →
      ((∃ err, c.ShouldBindJSONUpdate = .error err) ↔ field entries "value" = "") := by
    intro entries hbody
    cases hres : c.ShouldBindJSONUpdate with
    | error err =>
      simp only [Except.error.injEq, exists_eq', true_iff]
      by_contra hcon
      have hok := (bindUpdate_ok_iff c ⟨field entries "value"⟩).2 ⟨entries, hbody, rfl, hcon⟩
      rw [hres] at hok
      cases hok
    | ok req =>
      obtain ⟨e1, hb1, -, hv⟩ := (bindUpdate_ok_iff c req).1 hres
      rw [hbody] at hb1
      simp only [Except.ok.injEq] at hb1
      subst hb1
      simp [hv]
  refine ⟨?_, ?_, ?_, ?_, ?_, hcreate, hupdate⟩
  · intro err hb
    simp only [CreateSecret, hb]
    rfl
  · intro err hb
    simp only [UpdateSecret, hb]
    rfl
  · intro entries hbody hmiss
    rw [hcreate entries hbody]
    rcases hmiss with hm | hm
    · exact Or.inl (field_of_no_match "name" entries hm)
    · exact Or.inr (field_of_no_match "value" entries hm)
  · intro entries hbody hmiss
    rw [hupdate entries hbody]
    exact field_of_no_match "value" entries hmiss
  · intro err hbody
    simp [Context.ShouldBindJSONCreate, Context.ShouldBindJSONUpdate, hbody]

/-- Witness of C7: a create body without `value` and an update body without `value`
both fail binding, and the handlers answer 400 without a backend call. -/
theorem malformed_body_rejected_witness :
    (memHandler.CreateSecret (request "" [("name", "db-password")])
        (World.start [])).1.status = 400 ∧
    (memHandler.CreateSecret (request "" [("name", "db-password")])
        (World.start [])).2.calls = [] ∧
    (memHandler.UpdateSecret (request "db-password" [])
        (World.start [("db-password", "s3cr3t")])).1.status = 400 ∧
    (memHandler.UpdateSecret (request "db-password" [])
        (World.start [("db-password", "s3cr3t")])).2.calls = [] := by
  obtain ⟨e1, h1⟩ := (malformed_body_rejected memHandler (request "" [("name", "db-password")])
    (World.start [])).2.2.1 _ rfl (Or.inr (by decide))
  obtain ⟨e2, h2⟩ := (malformed_body_rejected memHandler (request "db-password" [])
    (World.start [("db-password", "s3cr3t")])).2.2.2.1 _ rfl (by decide)
  rw [(malformed_body_rejected memHandler (request "" [("name", "db-password")])
    (World.start [])).1 e1 h1]
  rw [(malformed_body_rejected memHandler (request "db-password" [])
    (World.start [("db-password", "s3cr3t")])).2.1 e2 h2]
  exact ⟨rfl, rfl, rfl, rfl⟩

/-- Keys are matched to the json tags without regard to letter case: a create body
with the keys `Name` and `VALUE` binds and is served, and so is an update body
with the key `Value`. -/
theorem bind_ignores_key_case :
    (memHandler.CreateSecret (request "" [("Name", "db-password"), ("VALUE", "s3cr3t")])
      (World.start [])).1 = ⟨201, some (.SecretResponse "db-password" "")⟩ ∧
    (memHandler.CreateSecret (request "" [("Name", "db-password"), ("VALUE", "s3cr3t")])
      (World.start [])).2.calls
      = [Call.ItemExists "db-password", Call.CreateItem "db-password" "s3cr3t"] ∧
    (memHandler.UpdateSecret (request "db-password" [("Value", "n3w")])
      (World.start [("db-password", "s3cr3t")])).1
      = ⟨200, some (.SecretResponse "db-password" "")⟩ ∧
    (memHandler.UpdateSecret (request "db-password" [("Value", "n3w")])
      (World.start [("db-password", "s3cr3t")])).2.state = [("db-password", "n3w")] := by
  decide

/-! ## Check-then-act handlers -/

/-- C1. No-clobber create: for every create request that binds to `req` and every
backend, the first backend call of `CreateSecret` is `ItemExists(req.Name)`.  If it
returns true with no error, the response is 409 "secret already exists", the probe
is the only call, and the store is in the state the probe left (for a faithful
key-value store: its content is unchanged).  `CreateItem(req.Name, req.Value)` is
called, once and right after the probe, exactly when the probe returned false with
no error; and the response is 201 only in that case, when `CreateItem` has no error,
then carrying the name. -/
theorem createSecret_no_clobber (h : SecretHandler σ τ) (c : Context) (w : World σ)
    (req : CreateSecretRequest) (hb : c.ShouldBindJSONCreate = .ok req) :
    (∃ rest, (h.CreateSecret c w).2.calls = w.calls ++ Call.ItemExists req.Name :: rest) ∧
    ((h.backend.ItemExists req.Name h.session w.state).1 = (true, none) →
      (h.CreateSecret c w).1 = ⟨409, some (.H "secret already exists")⟩ ∧
      (h.CreateSecret c w).2.calls = w.calls ++ [Call.ItemExists req.Name] ∧
      (h.CreateSecret c w).2.state = (h.backend.ItemExists req.Name h.session w.state).2) ∧
    (∀ view : σ → String → Option String, FaithfulKV h.backend view →
      (view w.state req.Name).isSome = true →
      (h.CreateSecret c w).1 = ⟨409, some (.H "secret already exists")⟩ ∧
      view (h.CreateSecret c w).2.state = view w.state) ∧
    ((h.backend.ItemExists req.Name h.session w.state).1 = (false, none) →
      (h.CreateSecret c w).2.calls =
        w.calls ++ [Call.ItemExists req.Name, Call.CreateItem req.Name req.Value]) ∧
    ((h.backend.ItemExists req.Name h.session w.state).1 ≠ (false, none) →
      (h.CreateSecret c w).2.calls = w.calls ++ [Call.ItemExists req.Name]) ∧
    ((h.CreateSecret c w).1.status = 201 →
      (h.backend.ItemExists req.Name h.session w.state).1 = (false, none) ∧
      (h.backend.CreateItem req.Name req.Value h.session
        (h.backend.ItemExists req.Name h.session w.state).2).1 = none ∧
      (h.CreateSecret c w).1 = ⟨201, some (.SecretResponse req.Name "")⟩) ∧
    ((h.backend.ItemExists req.Name h.session w.state).1 = (false, none) →
      (h.backend.CreateItem req.Name req.Value h.session
        (h.backend.ItemExists req.Name h.session w.state).2).1 = none →
      (h.CreateSecret c w).1 = ⟨201, some (.SecretResponse req.Name "")⟩) := by
  have hout := createSecret_eq h c w req hb
  rcases hp : h.backend.ItemExists req.Name h.session w.state with ⟨⟨b, e⟩, s1⟩
  rw [hp] at hout
  rcases hc : h.backend.CreateItem req.Name req.Value h.session s1 with ⟨e2, s2⟩
  simp only [hc] at hout
  refine ⟨?_, ?_, ?_, ?_, ?_, ?_, ?_⟩
  · rw [hout]
    cases e with
    | some err => exact ⟨[], rfl⟩
    | none =>
      cases b with
      | true => exact ⟨[], rfl⟩
      | false => cases e2 <;> exact ⟨[Call.CreateItem req.Name req.Value], rfl⟩
  · intro hv
    simp only [Prod.mk.injEq] at hv
    obtain ⟨rfl, rfl⟩ := hv
    rw [hout]
    exact ⟨rfl, rfl, rfl⟩
  · intro view hf hpres
    have hx := hf.itemExists req.Name h.session w.state
    rw [hp] at hx
    simp only [hpres, Prod.mk.injEq] at hx
    obtain ⟨⟨rfl, rfl⟩, hview⟩ := hx
    rw [hout]
    exact ⟨rfl, hview⟩
  · intro hv
    simp only [Prod.mk.injEq] at hv
    obtain ⟨rfl, rfl⟩ := hv
    rw [hout]
    cases e2 <;> rfl
  · intro hv
    rw [hout]
    cases e with
    | some err => rfl
    | none =>
      cases b with
      | true => rfl
      | false => exact absurd rfl hv
  · intro hst
    rw [hout] at hst ⊢
    cases e with
    | some err => simp [JSON, StatusInternalServerError] at hst
    | none =>
      cases b with
      | true => simp [JSON, StatusConflict] at hst
      | false =>
        cases e2 with
        | some err => simp [JSON, StatusInternalServerError] at hst
        | none => exact ⟨rfl, rfl, rfl⟩
  · intro hv hcv
    simp only [Prod.mk.injEq] at hv
    obtain ⟨rfl, rfl⟩ := hv
    simp only at hcv
    subst hcv
    rw [hout]
    rfl

/-- Witness of C1 on the in-memory backend: creating a present name is refused
with 409 and only the probe is called. -/
theorem createSecret_no_clobber_witness :
    (memHandler.CreateSecret (request "" [("name", "db-password"), ("value", "n3w")])
        (World.start [("db-password", "s3cr3t")])).1
      = ⟨409, some (.H "secret already exists")⟩ ∧
    (memHandler.CreateSecret (request "" [("name", "db-password"), ("value", "n3w")])
        (World.start [("db-password", "s3cr3t")])).2.calls = [Call.ItemExists "db-password"] ∧
    (memHandler.CreateSecret (request "" [("name", "db-password"), ("value", "n3w")])
        (World.start [("db-password", "s3cr3t")])).2.state = [("db-password", "s3cr3t")] :=
  (createSecret_no_clobber memHandler
    (request "" [("name", "db-password"), ("value", "n3w")])
    (World.start [("db-password", "s3cr3t")]) ⟨"db-password", "n3w"⟩ rfl).2.1
    (by decide)

/-- C2. No-resurrect update: for every name, every update body that binds to `req`
and every backend, if `ItemExists(name)` returns false with no error then
`UpdateSecret` responds 404 "secret not found", the probe is its only backend call
(`UpdateItem` is not called) and the store is in the state the probe left, so that
a following `ItemExists(name)` is still false whenever the probe itself does not
change the store (in particular over a faithful key-value store).
`UpdateItem(name, req.Value)` is called, once and right after the probe, exactly
when the probe returned true with no error, and the response is then 200 carrying
the name when `UpdateItem` has no error. -/
theorem updateSecret_no_resurrect (h : SecretHandler σ τ) (c : Context) (w : World σ)
    (req : UpdateSecretRequest) (hb : c.ShouldBindJSONUpdate = .ok req) :
    ((h.backend.ItemExists (c.Param "name") h.session w.state).1 = (false, none) →
      (h.UpdateSecret c w).1 = ⟨404, some (.H "secret not found")⟩ ∧
      (h.UpdateSecret c w).2.calls = w.calls ++ [Call.ItemExists (c.Param "name")] ∧
      (h.UpdateSecret c w).2.state = (h.backend.ItemExists (c.Param "name") h.session w.state).2 ∧
      ((h.backend.ItemExists (c.Param "name") h.session w.state).2 = w.state →
        (h.backend.ItemExists (c.Param "name") h.session (h.UpdateSecret c w).2.state).1
          = (false, none))) ∧
    (∀ view : σ → String → Option String, FaithfulKV h.backend view →
      view w.state (c.Param "name") = none →
      (h.UpdateSecret c w).1 = ⟨404, some (.H "secret not found")⟩ ∧
      (h.backend.ItemExists (c.Param "name") h.session (h.UpdateSecret c w).2.state).1
        = (false, none)) ∧
    ((h.backend.ItemExists (c.Param "name") h.session w.state).1 = (true, none) →
      (h.UpdateSecret c w).2.calls = w.calls ++
        [Call.ItemExists (c.Param "name"), Call.UpdateItem (c.Param "name") req.Value]) ∧
    ((h.backend.ItemExists (c.Param "name") h.session w.state).1 ≠ (true, none) →
      (h.UpdateSecret c w).2.calls = w.calls ++ [Call.ItemExists (c.Param "name")]) ∧
    ((h.backend.ItemExists (c.Param "name") h.session w.state).1 = (true, none) →
      (h.backend.UpdateItem (c.Param "name") req.Value h.session
        (h.backend.ItemExists (c.Param "name") h.session w.state).2).1 = none →
      (h.UpdateSecret c w).1 = ⟨200, some (.SecretResponse (c.Param "name") "")⟩) := by
  have hout := updateSecret_eq h c w req hb
  rcases hp : h.backend.ItemExists (c.Param "name") h.session w.state with ⟨⟨b, e⟩, s1⟩
  rw [hp] at hout
  rcases hc : h.backend.UpdateItem (c.Param "name") req.Value h.session s1 with ⟨e2, s2⟩
  simp only [hc] at hout
  refine ⟨?_, ?_, ?_, ?_, ?_⟩
  · intro hv
    simp only [Prod.mk.injEq] at hv
    obtain ⟨rfl, rfl⟩ := hv
    rw [hout]
    refine ⟨rfl, rfl, rfl, ?_⟩
    intro hro
    simp only at hro
    subst hro
    simp only [Bool.false_eq_true, if_false]
    rw [hp]
  · intro view hf habs
    have hx := hf.itemExists (c.Param "name") h.session w.state
    rw [hp] at hx
    simp only [habs, Option.isSome_none, Prod.mk.injEq] at hx
    obtain ⟨⟨rfl, rfl⟩, hview⟩ := hx
    rw [hout]
    refine ⟨rfl, ?_⟩
    simp only [Bool.false_eq_true, if_false]
    have hy := (hf.itemExists (c.Param "name") h.session s1).1
    rw [hview, habs] at hy
    exact hy
  · intro hv
    simp only [Prod.mk.injEq] at hv
    obtain ⟨rfl, rfl⟩ := hv
    rw [hout]
    cases e2 <;> rfl
  · intro hv
    rw [hout]
    cases e with
    | some err => rfl
    | none =>
      cases b with
      | false => rfl
      | true => exact absurd rfl hv
  · intro hv hcv
    simp only [Prod.mk.injEq] at hv
    obtain ⟨rfl, rfl⟩ := hv
    simp only at hcv
    subst hcv
    rw [hout]
    rfl

/-- Witness of C2 on the in-memory backend: updating a name that was never created
is answered 404, only the probe is called, and the name is still absent. -/
theorem updateSecret_no_resurrect_witness :
    (memHandler.UpdateSecret (request "ghost" [("value", "x")]) (World.start [])).1
      = ⟨404, some (.H "secret not found")⟩ ∧
    (memHandler.UpdateSecret (request "ghost" [("value", "x")]) (World.start [])).2.calls
      = [Call.ItemExists "ghost"] ∧
    (memBackend.ItemExists "ghost" ()
      (memHandler.UpdateSecret (request "ghost" [("value", "x")]) (World.start [])).2.state).1
      = (false, none) :=
  have hw := (updateSecret_no_resurrect memHandler (request "ghost" [("value", "x")])
    (World.start []) ⟨"x"⟩ rfl).1 (by decide)
  ⟨hw.1, hw.2.1, hw.2.2.2 (by decide)⟩


/-! ## Sequences over a faithful key-value store -/

/-- C3. Delete is terminal: over a backend that is a faithful key-value store, for a
name that is present, `DeleteSecret` responds 204 with no body after the probe and
one `DeleteItem` call; a following `GetSecret` of that name responds 404 "secret
not found"; and a second `DeleteSecret` of that name (right away, or after that
`GetSecret`) responds 404 "secret not found" with the probe as its only backend
call. -/
theorem deleteSecret_terminal (h : SecretHandler σ τ) (view : σ → String → Option String)
    (hf : FaithfulKV h.backend view) (name : String) (c c2 c3 : Context) (w : World σ)
    (hc : c.Param "name" = name) (hc2 : c2.Param "name" = name) (hc3 : c3.Param "name" = name)
    (hpres : (view w.state name).isSome = true) :
    (h.DeleteSecret c w).1 = ⟨204, none⟩ ∧
    (h.DeleteSecret c w).2.calls = w.calls ++ [Call.ItemExists name, Call.DeleteItem name] ∧
    (h.GetSecret c2 (h.DeleteSecret c w).2).1 = ⟨404, some (.H "secret not found")⟩ ∧
    (h.DeleteSecret c3 (h.DeleteSecret c w).2).1 = ⟨404, some (.H "secret not found")⟩ ∧
    (h.DeleteSecret c3 (h.DeleteSecret c w).2).2.calls
      = (h.DeleteSecret c w).2.calls ++ [Call.ItemExists name] ∧
    (h.DeleteSecret c3 (h.GetSecret c2 (h.DeleteSecret c w).2).2).1
      = ⟨404, some (.H "secret not found")⟩ ∧
    (h.DeleteSecret c3 (h.GetSecret c2 (h.DeleteSecret c w).2).2).2.calls
      = (h.GetSecret c2 (h.DeleteSecret c w).2).2.calls ++ [Call.ItemExists name] := by
  subst hc
  -- the first delete
  rcases hp : h.backend.ItemExists (c.Param "name") h.session w.state with ⟨⟨b, e⟩, s1⟩
  have hx := hf.itemExists (c.Param "name") h.session w.state
  rw [hp] at hx
  simp only [hpres, Prod.mk.injEq] at hx
  obtain ⟨⟨rfl, rfl⟩, hview1⟩ := hx
  rcases hd : h.backend.DeleteItem (c.Param "name") h.session s1 with ⟨e2, s2⟩
  have hy := hf.deleteItem (c.Param "name") h.session s1 (by rw [hview1]; exact hpres)
  rw [hd] at hy
  simp only at hy
  obtain ⟨rfl, hview2⟩ := hy
  have hdel := deleteSecret_eq h c w
  simp only [hp, hd, if_true] at hdel
  have habs2 : view s2 (c.Param "name") = none := by rw [hview2]; simp
  -- what a delete of the absent name does, from any world over an absent name
  have absentDelete : ∀ (w0 : World σ), view w0.state (c.Param "name") = none →
      (h.DeleteSecret c3 w0).1 = ⟨404, some (.H "secret not found")⟩ ∧
      (h.DeleteSecret c3 w0).2.calls = w0.calls ++ [Call.ItemExists (c.Param "name")] := by
    intro w0 h0
    rcases hp0 : h.backend.ItemExists (c3.Param "name") h.session w0.state with ⟨⟨b0, e0⟩, t1⟩
    have hz := hf.itemExists (c3.Param "name") h.session w0.state
    rw [hp0, hc3, h0] at hz
    simp only [Option.isSome_none, Prod.mk.injEq] at hz
    obtain ⟨⟨rfl, rfl⟩, -⟩ := hz
    rw [deleteSecret_eq h c3 w0, hp0, hc3]
    exact ⟨rfl, rfl⟩
  -- the get after the delete
  rcases hg : h.backend.GetNotes (c2.Param "name") h.session s2 with ⟨⟨v, eg⟩, s3⟩
  have hgv := hf.getNotesAbsent (c2.Param "name") h.session s2 (by rw [hc2]; exact habs2)
  rw [hg] at hgv
  obtain ⟨⟨err, herr, hnf⟩, hview3⟩ := hgv
  simp only at herr hview3
  subst herr
  have hget := getSecret_eq h c2 ⟨s2, w.calls ++ [Call.ItemExists (c.Param "name"),
    Call.DeleteItem (c.Param "name")]⟩
  simp only [hg, hnf, if_true] at hget
  rw [hdel]
  refine ⟨rfl, rfl, ?_, ?_, ?_, ?_, ?_⟩
  · rw [hget]; rfl
  · exact (absentDelete _ habs2).1
  · exact (absentDelete _ habs2).2
  · rw [hget]; exact (absentDelete _ (by rw [hview3]; exact habs2)).1
  · rw [hget]; exact (absentDelete _ (by rw [hview3]; exact habs2)).2

/-- Witness of C3 on the in-memory backend: delete of a present secret, then get and
a second delete. -/
theorem deleteSecret_terminal_witness :
    (memView (World.start [("db-password", "s3cr3t")]).state "db-password").isSome = true ∧
    (memHandler.DeleteSecret (request "db-password" [])
      (World.start [("db-password", "s3cr3t")])).1 = ⟨204, none⟩ ∧
    (memHandler.GetSecret (request "db-password" [])
      (memHandler.DeleteSecret (request "db-password" [])
        (World.start [("db-password", "s3cr3t")])).2).1
      = ⟨404, some (.H "secret not found")⟩ ∧
    (memHandler.DeleteSecret (request "db-password" [])
      (memHandler.DeleteSecret (request "db-password" [])
        (World.start [("db-password", "s3cr3t")])).2).1
      = ⟨404, some (.H "secret not found")⟩ :=
  have hw := deleteSecret_terminal memHandler memView memBackend_faithful "db-password"
    (request "db-password" []) (request "db-password" []) (request "db-password" [])
    (World.start [("db-password", "s3cr3t")]) rfl rfl rfl (by decide)
  ⟨by decide, hw.1, hw.2.2.1, hw.2.2.2.1⟩

/-- Counterexample to C10 as stated: the empty name is not present in the empty
store and the value is not empty, yet `CreateSecret` answers 400 (the `required`
tag on `Name` rejects the body) and makes no backend call. -/
theorem create_then_get_counterexample :
    memView [] "" = none ∧ "s3cr3t" ≠ "" ∧
    (memHandler.CreateSecret (request "" [("name", ""), ("value", "s3cr3t")])
      (World.start [])).1.status = 400 ∧
    (memHandler.CreateSecret (request "" [("name", ""), ("value", "s3cr3t")])
      (World.start [])).2.calls = [] := by
  refine ⟨rfl, by decide, ?_, ?_⟩ <;> rfl

/-- C10, amended. Create-then-get round trip: over a backend that is a faithful
key-value store, for every non-empty name that is not present and every non-empty
value `v`, `CreateSecret` with a body that decodes to that name and value responds 201 with
the name, calling `ItemExists(name)` and then `CreateItem(name, v)` with the name
and the value as received; and a following `GetSecret` of that name responds 200
with the name and the value `v`. -/
theorem create_then_get (h : SecretHandler σ τ) (view : σ → String → Option String)
    (hf : FaithfulKV h.backend view) (name v : String) (c c2 : Context) (w : World σ)
    (entries : List (String × String)) (hbody : c.body = .ok entries)
    (hname : field entries "name" = name) (hvalue : field entries "value" = v)
    (hc2 : c2.Param "name" = name)
    (hn : name ≠ "") (hv : v ≠ "") (habs : view w.state name = none) :
    (h.CreateSecret c w).1 = ⟨201, some (.SecretResponse name "")⟩ ∧
    (h.CreateSecret c w).2.calls = w.calls ++ [Call.ItemExists name, Call.CreateItem name v] ∧
    (h.GetSecret c2 (h.CreateSecret c w).2).1 = ⟨200, some (.SecretResponse name v)⟩ := by
  have hb : c.ShouldBindJSONCreate = .ok ⟨name, v⟩ := by
    rw [bindCreate_ok_iff]
    refine ⟨entries, hbody, ?_, ?_, ?_⟩ <;> simp [hname, hvalue, hn, hv]
  rcases hp : h.backend.ItemExists name h.session w.state with ⟨⟨b, e⟩, s1⟩
  have hx := hf.itemExists name h.session w.state
  rw [hp, habs] at hx
  simp only [Option.isSome_none, Prod.mk.injEq] at hx
  obtain ⟨⟨rfl, rfl⟩, hview1⟩ := hx
  rcases hcr : h.backend.CreateItem name v h.session s1 with ⟨e2, s2⟩
  have hy := hf.createItem name v h.session s1 (by rw [hview1]; exact habs)
  rw [hcr] at hy
  simp only at hy
  obtain ⟨rfl, hview2⟩ := hy
  have hcreate := createSecret_eq h c w ⟨name, v⟩ hb
  simp only [hp, hcr, Bool.false_eq_true, if_false] at hcreate
  rcases hg : h.backend.GetNotes (c2.Param "name") h.session s2 with ⟨⟨x, eg⟩, s3⟩
  have hgv := hf.getNotesPresent (c2.Param "name") h.session s2 v (by rw [hc2, hview2]; simp)
  rw [hg] at hgv
  simp only [Prod.mk.injEq] at hgv
  obtain ⟨⟨rfl, rfl⟩, -⟩ := hgv
  have hget := getSecret_eq h c2 ⟨s2, w.calls ++ [Call.ItemExists name,
    Call.CreateItem name x]⟩
  simp only [hg] at hget
  rw [hcreate]
  refine ⟨rfl, rfl, ?_⟩
  rw [hget, hc2]
  rfl

/-- Witness of C10 on the in-memory backend: the scenario of the specification,
creating "db-password" with "s3cr3t" and reading it back. -/
theorem create_then_get_witness :
    (memHandler.CreateSecret (request "" [("name", "db-password"), ("value", "s3cr3t")])
      (World.start [])).1 = ⟨201, some (.SecretResponse "db-password" "")⟩ ∧
    (memHandler.GetSecret (request "db-password" [])
      (memHandler.CreateSecret (request "" [("name", "db-password"), ("value", "s3cr3t")])
        (World.start [])).2).1 = ⟨200, some (.SecretResponse "db-password" "s3cr3t")⟩ :=
  have hw := create_then_get memHandler memView memBackend_faithful "db-password" "s3cr3t"
    (request "" [("name", "db-password"), ("value", "s3cr3t")]) (request "db-password" [])
    (World.start []) _ rfl (by decide) (by decide) rfl (by decide) (by decide) rfl
  ⟨hw.1, hw.2.2⟩


/-! ## Error mapping -/

/-- Counterexample to C4 as stated: a capability call returns the sentinel
`ErrNotFound` and the handler answers 500 with the error text, not 404.  This
happens when `UpdateItem` or `DeleteItem` returns it after the probe reported the
name present with no error, when `CreateItem` returns it after the probe reported
the name absent, when the probe `ItemExists` itself returns it, and when `ListItems`
returns it. -/
theorem notFound_passthrough_counterexample :
    ErrNotFound.isErrNotFound = true ∧
    ((notFoundBackend (true, none)).ItemExists "ghost" () ()).1 = (true, none) ∧
    ((notFoundBackend (true, none)).UpdateItem "ghost" "x" () ()).1 = some ErrNotFound ∧
    ((notFoundBackend (true, none)).DeleteItem "ghost" () ()).1 = some ErrNotFound ∧
    ((NewSecretHandler (notFoundBackend (true, none)) ()).UpdateSecret
      (request "ghost" [("value", "x")]) (World.start ())).1
      = ⟨500, some (.H ErrNotFound.Error)⟩ ∧
    ((NewSecretHandler (notFoundBackend (true, none)) ()).DeleteSecret
      (request "ghost" []) (World.start ())).1 = ⟨500, some (.H ErrNotFound.Error)⟩ ∧
    ((notFoundBackend (false, none)).CreateItem "ghost" "x" () ()).1 = some ErrNotFound ∧
    ((NewSecretHandler (notFoundBackend (false, none)) ()).CreateSecret
      (request "" [("name", "ghost"), ("value", "x")]) (World.start ())).1
      = ⟨500, some (.H ErrNotFound.Error)⟩ ∧
    ((notFoundBackend (false, some ErrNotFound)).ItemExists "ghost" () ()).1
      = (false, some ErrNotFound) ∧
    ((NewSecretHandler (notFoundBackend (false, some ErrNotFound)) ()).CreateSecret
      (request "" [("name", "ghost"), ("value", "x")]) (World.start ())).1
      = ⟨500, some (.H ErrNotFound.Error)⟩ ∧
    ((NewSecretHandler (notFoundBackend (false, some ErrNotFound)) ()).UpdateSecret
      (request "ghost" [("value", "x")]) (World.start ())).1
      = ⟨500, some (.H ErrNotFound.Error)⟩ ∧
    ((NewSecretHandler (notFoundBackend (false, some ErrNotFound)) ()).DeleteSecret
      (request "ghost" []) (World.start ())).1 = ⟨500, some (.H ErrNotFound.Error)⟩ ∧
    ((notFoundBackend (true, none)).ListItems () ()).1 = ([], some ErrNotFound) ∧
    ((NewSecretHandler (notFoundBackend (true, none)) ()).ListSecrets
      (request "" []) (World.start ())).1 = ⟨500, some (.H ErrNotFound.Error)⟩ := by
  decide

/-- C4, amended. The sentinel `ErrNotFound` is passed through as 404 by `GetSecret`
alone: `GetSecret` answers 404 exactly when its value lookup returns that error.
`UpdateSecret` answers 404 exactly when the body binds and the existence probe
reports the name absent with no error, `DeleteSecret` exactly when the probe
reports the name absent with no error; `CreateSecret` and `ListSecrets` never
answer 404.  Every error returned by `ListItems`, by the probe `ItemExists`, or by
`CreateItem`, `UpdateItem` or `DeleteItem` after the probe, the sentinel
`ErrNotFound` included, is answered with 500 carrying the error text. -/
theorem notFound_mapping (h : SecretHandler σ τ) (c : Context) (w : World σ) :
    (∀ v e, (h.backend.GetNotes (c.Param "name") h.session w.state).1 = (v, some e) →
      e.isErrNotFound = true → (h.GetSecret c w).1 = ⟨404, some (.H "secret not found")⟩) ∧
    (∀ req, c.ShouldBindJSONUpdate = .ok req →
      (h.backend.ItemExists (c.Param "name") h.session w.state).1 = (false, none) →
      (h.UpdateSecret c w).1 = ⟨404, some (.H "secret not found")⟩) ∧
    ((h.backend.ItemExists (c.Param "name") h.session w.state).1 = (false, none) →
      (h.DeleteSecret c w).1 = ⟨404, some (.H "secret not found")⟩) ∧
    (∀ items e, (h.backend.ListItems h.session w.state).1 = (items, some e) →
      (h.ListSecrets c w).1 = ⟨500, some (.H e.Error)⟩) ∧
    (∀ req b e, c.ShouldBindJSONCreate = .ok req →
      (h.backend.ItemExists req.Name h.session w.state).1 = (b, some e) →
      (h.CreateSecret c w).1 = ⟨500, some (.H e.Error)⟩) ∧
    (∀ req b e, c.ShouldBindJSONUpdate = .ok req →
      (h.backend.ItemExists (c.Param "name") h.session w.state).1 = (b, some e) →
      (h.UpdateSecret c w).1 = ⟨500, some (.H e.Error)⟩) ∧
    (∀ b e, (h.backend.ItemExists (c.Param "name") h.session w.state).1 = (b, some e) →
      (h.DeleteSecret c w).1 = ⟨500, some (.H e.Error)⟩) ∧
    (∀ req e, c.ShouldBindJSONCreate = .ok req →
      (h.backend.ItemExists req.Name h.session w.state).1 = (false, none) →
      (h.backend.CreateItem req.Name req.Value h.session
        (h.backend.ItemExists req.Name h.session w.state).2).1 = some e →
      (h.CreateSecret c w).1 = ⟨500, some (.H e.Error)⟩) ∧
    (∀ req e, c.ShouldBindJSONUpdate = .ok req →
      (h.backend.ItemExists (c.Param "name") h.session w.state).1 = (true, none) →
      (h.backend.UpdateItem (c.Param "name") req.Value h.session
        (h.backend.ItemExists (c.Param "name") h.session w.state).2).1 = some e →
      (h.UpdateSecret c w).1 = ⟨500, some (.H e.Error)⟩) ∧
    (∀ e, (h.backend.ItemExists (c.Param "name") h.session w.state).1 = (true, none) →
      (h.backend.DeleteItem (c.Param "name") h.session
        (h.backend.ItemExists (c.Param "name") h.session w.state).2).1 = some e →
      (h.DeleteSecret c w).1 = ⟨500, some (.H e.Error)⟩) ∧
    ((h.GetSecret c w).1.status = 404 ↔
      ∃ e, (h.backend.GetNotes (c.Param "name") h.session w.state).1.2 = some e ∧
        e.isErrNotFound = true) ∧
    ((h.UpdateSecret c w).1.status = 404 ↔
      ((∃ req, c.ShouldBindJSONUpdate = .ok req) ∧
        (h.backend.ItemExists (c.Param "name") h.session w.state).1 = (false, none))) ∧
    ((h.DeleteSecret c w).1.status = 404 ↔
      (h.backend.ItemExists (c.Param "name") h.session w.state).1 = (false, none)) ∧
    (h.CreateSecret c w).1.status ≠ 404 ∧
    (h.ListSecrets c w).1.status ≠ 404 := by
  refine ⟨?_, ?_, ?_, ?_, ?_, ?_, ?_, ?_, ?_, ?_, ?_, ?_, ?_, ?_, ?_⟩
  · intro v e hr hnf
    rw [getSecret_eq h c w, hr]
    simp only [hnf, if_true]
    rfl
  · intro req hb hp
    rw [updateSecret_eq h c w req hb, hp]
    rfl
  · intro hp
    rw [deleteSecret_eq h c w, hp]
    rfl
  · intro items e hr
    rw [listSecrets_eq h c w, hr]
    rfl
  · intro req b e hb hp
    rw [createSecret_eq h c w req hb, hp]
    rfl
  · intro req b e hb hp
    rw [updateSecret_eq h c w req hb, hp]
    rfl
  · intro b e hp
    rw [deleteSecret_eq h c w, hp]
    rfl
  · intro req e hb hp hm
    rw [createSecret_eq h c w req hb, hp]
    simp only [Bool.false_eq_true, if_false]
    rw [hm]
    rfl
  · intro req e hb hp hm
    rw [updateSecret_eq h c w req hb, hp]
    simp only [if_true]
    rw [hm]
    rfl
  · intro e hp hm
    rw [deleteSecret_eq h c w, hp]
    simp only [if_true]
    rw [hm]
    rfl
  · rw [getSecret_eq h c w]
    rcases h.backend.GetNotes (c.Param "name") h.session w.state with ⟨⟨v, e⟩, s⟩
    cases e with
    | none => simp [JSON, StatusOK]
    | some err =>
      by_cases hnf : err.isErrNotFound = true
      · simp [hnf, JSON, StatusNotFound]
      · simp [hnf, JSON, StatusInternalServerError]
  · cases hb : c.ShouldBindJSONUpdate with
    | error err =>
      simp [UpdateSecret, hb, JSON, StatusBadRequest]
    | ok req =>
      rw [updateSecret_eq h c w req hb]
      rcases h.backend.ItemExists (c.Param "name") h.session w.state with ⟨⟨b, e⟩, s1⟩
      cases e with
      | some err => simp [JSON, StatusInternalServerError]
      | none =>
        cases b with
        | false => simp [JSON, StatusNotFound]
        | true =>
          rcases h.backend.UpdateItem (c.Param "name") req.Value h.session s1 with ⟨e2, s2⟩
          cases e2 <;> simp [JSON, StatusInternalServerError, StatusOK]
  · rw [deleteSecret_eq h c w]
    rcases h.backend.ItemExists (c.Param "name") h.session w.state with ⟨⟨b, e⟩, s1⟩
    cases e with
    | some err => simp [JSON, StatusInternalServerError]
    | none =>
      cases b with
      | false => simp [JSON, StatusNotFound]
      | true =>
        rcases h.backend.DeleteItem (c.Param "name") h.session s1 with ⟨e2, s2⟩
        cases e2 <;> simp [JSON, StatusInternalServerError, StatusNoContent]
  · cases hb : c.ShouldBindJSONCreate with
    | error err =>
      simp [CreateSecret, hb, JSON, StatusBadRequest]
    | ok req =>
      rw [createSecret_eq h c w req hb]
      rcases h.backend.ItemExists req.Name h.session w.state with ⟨⟨b, e⟩, s1⟩
      cases e with
      | some err => simp [JSON, StatusInternalServerError]
      | none =>
        cases b with
        | true => simp [JSON, StatusConflict]
        | false =>
          rcases h.backend.CreateItem req.Name req.Value h.session s1 with ⟨e2, s2⟩
          cases e2 <;> simp [JSON, StatusInternalServerError, StatusCreated]
  · rw [listSecrets_eq h c w]
    rcases h.backend.ListItems h.session w.state with ⟨⟨items, e⟩, s⟩
    cases e <;> simp [JSON, StatusInternalServerError, StatusOK]

/-- Witness of C4, amended, on the in-memory backend: a lookup of an absent name is
answered 404, and so is an update of an absent name. -/
theorem notFound_mapping_witness :
    (memHandler.GetSecret (request "ghost" []) (World.start [])).1
      = ⟨404, some (.H "secret not found")⟩ ∧
    (memHandler.UpdateSecret (request "ghost" [("value", "x")]) (World.start [])).1
      = ⟨404, some (.H "secret not found")⟩ :=
  ⟨(notFound_mapping memHandler (request "ghost" []) (World.start [])).1 "" ErrNotFound
      rfl rfl,
   (notFound_mapping memHandler (request "ghost" [("value", "x")]) (World.start [])).2.1
      ⟨"x"⟩ rfl rfl⟩


end Claims


/-! ## Startup and shutdown of the process -/

section Startup

theorem supportedBackends_iff (bt : String) :
    supportedBackends bt = true ↔ (bt = "awssecrets" ∨ bt = "gcpsecrets" ∨ bt = "azurekeyvault") := by
  unfold supportedBackends supportedBackendsMap
  by_cases h1 : "awssecrets" = bt
  · subst h1; simp
  · by_cases h2 : "gcpsecrets" = bt
    · subst h2; simp
    · by_cases h3 : "azurekeyvault" = bt
      · subst h3; simp
      · have h1b : ¬ bt = "awssecrets" := fun h => h1 h.symm
        have h2b : ¬ bt = "gcpsecrets" := fun h => h2 h.symm
        have h3b : ¬ bt = "azurekeyvault" := fun h => h3 h.symm
        simp [List.find?_cons, h1, h2, h3, h1b, h2b, h3b]

/-- C8. Startup failures are fatal before any request is served.  If a run of `main`
builds the router or starts the listener, then the selector is non-empty and
supported (one of "awssecrets", "gcpsecrets", "azurekeyvault"), `vaultmux.New`, `Init` and `Authenticate` all succeeded, and the run
begins with exactly these calls in this order (its first five events).  In each failing case the run is
the calls made so far followed by the fatal log line naming the cause, with exit
status 1 and no router or listener; an empty or unsupported selector is rejected
before `vaultmux.New` is called. -/
theorem startup_failures_fatal (e : Env) :
    (((∃ bt, Event.Router bt ∈ (main e).events) ∨ (∃ a, Event.Serve a ∈ (main e).events)) →
      getEnv e "VAULTMUX_BACKEND" "" ≠ "" ∧
      supportedBackends (getEnv e "VAULTMUX_BACKEND" "") = true ∧
      (getEnv e "VAULTMUX_BACKEND" "" = "awssecrets" ∨
        getEnv e "VAULTMUX_BACKEND" "" = "gcpsecrets" ∨
        getEnv e "VAULTMUX_BACKEND" "" = "azurekeyvault") ∧
      e.New (backendConfig e) = none ∧ e.Init = none ∧ e.Authenticate = none ∧
      (main e).events.take 5 =
        [Event.New (backendConfig e), Event.Init, Event.Authenticate,
          Event.Router (getEnv e "VAULTMUX_BACKEND" ""),
          Event.Serve (":" ++ getEnv e "PORT" "8080")]) ∧
    (getEnv e "VAULTMUX_BACKEND" "" = "" →
      main e = ⟨[Event.Fatal
        "VAULTMUX_BACKEND environment variable is required (aws, gcp, or azure)"], some 1⟩) ∧
    (getEnv e "VAULTMUX_BACKEND" "" ≠ "" →
      supportedBackends (getEnv e "VAULTMUX_BACKEND" "") = false →
      main e = ⟨[Event.Fatal ("Unsupported backend: " ++ getEnv e "VAULTMUX_BACKEND" "" ++
        ". vaultmux-server supports: awssecrets, gcpsecrets, azurekeyvault. For other backends (pass, bitwarden, 1password), use the vaultmux library directly.")],
        some 1⟩) ∧
    (∀ err, getEnv e "VAULTMUX_BACKEND" "" ≠ "" →
      supportedBackends (getEnv e "VAULTMUX_BACKEND" "") = true →
      e.New (backendConfig e) = some err →
      main e = ⟨[Event.New (backendConfig e),
        Event.Fatal ("Failed to create vaultmux backend: " ++ err.Error)], some 1⟩) ∧
    (∀ err, getEnv e "VAULTMUX_BACKEND" "" ≠ "" →
      supportedBackends (getEnv e "VAULTMUX_BACKEND" "") = true →
      e.New (backendConfig e) = none → e.Init = some err →
      main e = ⟨[Event.New (backendConfig e), Event.Init,
        Event.Fatal ("Failed to initialize backend: " ++ err.Error)], some 1⟩) ∧
    (∀ err, getEnv e "VAULTMUX_BACKEND" "" ≠ "" →
      supportedBackends (getEnv e "VAULTMUX_BACKEND" "") = true →
      e.New (backendConfig e) = none → e.Init = none → e.Authenticate = some err →
      main e = ⟨[Event.New (backendConfig e), Event.Init, Event.Authenticate,
        Event.Fatal ("Failed to authenticate: " ++ err.Error)], some 1⟩) := by
  have hempty : getEnv e "VAULTMUX_BACKEND" "" = "" →
      main e = ⟨[Event.Fatal
        "VAULTMUX_BACKEND environment variable is required (aws, gcp, or azure)"], some 1⟩ := by
    intro hbt
    simp [main, hbt, Proc.fatal]
  have hunsup : getEnv e "VAULTMUX_BACKEND" "" ≠ "" →
      supportedBackends (getEnv e "VAULTMUX_BACKEND" "") = false →
      main e = ⟨[Event.Fatal ("Unsupported backend: " ++ getEnv e "VAULTMUX_BACKEND" "" ++
        ". vaultmux-server supports: awssecrets, gcpsecrets, azurekeyvault. For other backends (pass, bitwarden, 1password), use the vaultmux library directly.")],
        some 1⟩ := by
    intro hbt hs
    simp only [main, hbt, hs, if_false, Bool.not_false, if_true, Proc.fatal, List.nil_append]
  have hnew : ∀ err, getEnv e "VAULTMUX_BACKEND" "" ≠ "" →
      supportedBackends (getEnv e "VAULTMUX_BACKEND" "") = true →
      e.New (backendConfig e) = some err →
      main e = ⟨[Event.New (backendConfig e),
        Event.Fatal ("Failed to create vaultmux backend: " ++ err.Error)], some 1⟩ := by
    intro err hbt hs hn
    simp only [backendConfig] at hn
    simp [main, hbt, hs, hn, Proc.fatal, Proc.emit, backendConfig]
  have hinit : ∀ err, getEnv e "VAULTMUX_BACKEND" "" ≠ "" →
      supportedBackends (getEnv e "VAULTMUX_BACKEND" "") = true →
      e.New (backendConfig e) = none → e.Init = some err →
      main e = ⟨[Event.New (backendConfig e), Event.Init,
        Event.Fatal ("Failed to initialize backend: " ++ err.Error)], some 1⟩ := by
    intro err hbt hs hn hi
    simp only [backendConfig] at hn
    simp [main, hbt, hs, hn, hi, Proc.fatal, Proc.emit, Proc.defer, backendConfig]
  have hauth : ∀ err, getEnv e "VAULTMUX_BACKEND" "" ≠ "" →
      supportedBackends (getEnv e "VAULTMUX_BACKEND" "") = true →
      e.New (backendConfig e) = none → e.Init = none → e.Authenticate = some err →
      main e = ⟨[Event.New (backendConfig e), Event.Init, Event.Authenticate,
        Event.Fatal ("Failed to authenticate: " ++ err.Error)], some 1⟩ := by
    intro err hbt hs hn hi ha
    simp only [backendConfig] at hn
    simp [main, hbt, hs, hn, hi, ha, Proc.fatal, Proc.emit, Proc.defer, backendConfig]
  refine ⟨?_, hempty, hunsup, hnew, hinit, hauth⟩
  intro hserve
  by_cases hbt : getEnv e "VAULTMUX_BACKEND" "" = ""
  · rw [hempty hbt] at hserve
    simp at hserve
  cases hs : supportedBackends (getEnv e "VAULTMUX_BACKEND" "") with
  | false =>
    rw [hunsup hbt hs] at hserve
    simp at hserve
  | true =>
    cases hn : e.New (backendConfig e) with
    | some err =>
      rw [hnew err hbt hs hn] at hserve
      simp at hserve
    | none =>
      cases hi : e.Init with
      | some err =>
        rw [hinit err hbt hs hn hi] at hserve
        simp at hserve
      | none =>
        cases ha : e.Authenticate with
        | some err =>
          rw [hauth err hbt hs hn hi ha] at hserve
          simp at hserve
        | none =>
          refine ⟨hbt, rfl, (supportedBackends_iff _).1 hs, rfl, rfl, rfl, ?_⟩
          simp only [backendConfig] at hn
          cases hl : e.ListenAndServe with
          | some err =>
            simp only [main, hbt, hs, hn, hi, ha, hl, Proc.fatal, Proc.emit, Proc.defer,
              backendConfig, if_false, Bool.not_true, Bool.false_eq_true, List.nil_append,
              List.cons_append, List.singleton_append, List.take_succ_cons, List.take_zero]
          | none =>
            cases hq : e.quit with
            | false =>
              simp only [main, hbt, hs, hn, hi, ha, hl, hq, Proc.block, Proc.emit, Proc.defer,
                backendConfig, if_false, Bool.not_true, Bool.false_eq_true, List.nil_append,
                List.cons_append, List.singleton_append, Bool.not_false, if_true,
                List.take_succ_cons, List.take_zero]
            | true =>
              cases hsd : e.Shutdown with
              | some err =>
                simp only [main, hbt, hs, hn, hi, ha, hl, hq, hsd, Proc.fatal, Proc.emit,
                  Proc.defer, backendConfig, if_false, Bool.not_true, Bool.false_eq_true,
                  List.nil_append, List.cons_append, List.singleton_append, List.take_succ_cons,
                  List.take_zero]
              | none =>
                simp only [main, hbt, hs, hn, hi, ha, hl, hq, hsd, Proc.ret, Proc.emit,
                  Proc.defer, backendConfig, if_false, Bool.not_true, Bool.false_eq_true,
                  List.nil_append, List.cons_append, List.singleton_append, List.take_succ_cons,
                  List.take_zero]

/-- Witness of C8: with the selector "pass" (not a supported backend) the run is
one fatal log line and exit status 1; with "awssecrets" and a failing `Init` the
run stops after `Init` with exit status 1. -/
theorem startup_failures_fatal_witness :
    main (envOf "pass" none none none none)
      = ⟨[Event.Fatal ("Unsupported backend: " ++ "pass" ++
        ". vaultmux-server supports: awssecrets, gcpsecrets, azurekeyvault. For other backends (pass, bitwarden, 1password), use the vaultmux library directly.")],
        some 1⟩ ∧
    main (envOf "awssecrets" none (some ⟨"connection refused", false⟩) none none)
      = ⟨[Event.New ⟨"awssecrets", "vaultmux", []⟩, Event.Init,
          Event.Fatal "Failed to initialize backend: connection refused"], some 1⟩ :=
  ⟨(startup_failures_fatal (envOf "pass" none none none none)).2.2.1 (by decide) (by decide),
   (startup_failures_fatal
      (envOf "awssecrets" none (some ⟨"connection refused", false⟩) none none)).2.2.2.2.1
      ⟨"connection refused", false⟩ (by decide) (by decide) rfl rfl⟩

/-- C9, evaluated. On three runs of `main` that constructed a backend and then ended
the process (`Init` fails; `Authenticate` fails; the shutdown is forced because the
grace period ran out) the exit status is 1 and `Close` is not called at all; only
on the graceful run is it called, once, after `Shutdown` returned. -/
theorem close_skipped_on_fatal_exit :
    ((main (envOf "awssecrets" none (some ⟨"connection refused", false⟩) none none)).exit
        = some 1 ∧
      Event.New ⟨"awssecrets", "vaultmux", []⟩ ∈
        (main (envOf "awssecrets" none (some ⟨"connection refused", false⟩) none none)).events ∧
      (main (envOf "awssecrets" none (some ⟨"connection refused", false⟩) none none)).events.count
        Event.Close = 0) ∧
    ((main (envOf "awssecrets" none none (some ⟨"access denied", false⟩) none)).exit = some 1 ∧
      (main (envOf "awssecrets" none none (some ⟨"access denied", false⟩) none)).events.count
        Event.Close = 0) ∧
    ((main (envOf "awssecrets" none none none
        (some ⟨"context deadline exceeded", false⟩))).exit = some 1 ∧
      (main (envOf "awssecrets" none none none
        (some ⟨"context deadline exceeded", false⟩))).events.count Event.Close = 0) ∧
    ((main (envOf "awssecrets" none none none none)).exit = some 0 ∧
      (main (envOf "awssecrets" none none none none)).events.count Event.Close = 1 ∧
      (main (envOf "awssecrets" none none none none)).events.getLast? = some Event.Close) := by
  decide

end Startup


end Vaultmux
